import Mathlib

/-!
Verification of the spy-nav backend server (`backend/server.js`).

The server exposes a NAV-aggregation endpoint: it fetches one quote per
configured ticker symbol with bounded retries, combines the last prices via a
fixed weight table, scales by 10, rounds to two decimals, appends the result to
a persisted bounded history file, and returns it.  This file embeds the
helper functions (`getHistory`, `saveHistory`, `fetchWithRetry`) and the route
handlers for `GET /api/spy-nav`, `GET /api/spy-history` and
`DELETE /api/spy-history` as pure Lean functions over an explicit model of the
filesystem and upstream-fetch outcomes, and proves the spec-level properties
about them.

Modelling conventions:
* Prices, weights and NAV values are exact rationals (`ℚ`); JavaScript numbers
  are binary doubles, but the spec makes no precision guarantee beyond standard
  floating point, so value-level properties are stated over exact arithmetic.
* `number.toFixed(2)` followed by `parseFloat` is modelled as exact rounding to
  two decimal places (`round2`).
* The single persisted resource `history.json` is modelled by `FileState`:
  absent, present-but-corrupt (content on which `JSON.parse` throws a
  `SyntaxError`), or present with a serialized list of samples.
* Exceptions are modelled with `Except`; a JavaScript function that can return
  `undefined` (fall off the end of a loop) returns an `Option`.
-/

set_option maxRecDepth 8000

namespace SpyNav

/-- A history entry `\x7b time, nav \x7d` as written by the server:
`time` is the ISO-8601 string from `new Date().toISOString()` and `nav` the
rounded NAV value. -/
structure NavSample where
  time : String
  nav : ℚ
  deriving DecidableEq

/-- State of the persisted resource `history.json`.
`corrupt` models a file that exists but whose content makes `JSON.parse`
throw (malformed serialization); `valid entries` a file holding
`JSON.stringify` of the given list. -/
inductive FileState where
  | absent : FileState
  | corrupt : FileState
  | valid (entries : List NavSample) : FileState
  deriving DecidableEq

/-- Errors thrown on the server's request paths. -/
inductive Err where
  | apiKeyMissing : Err
  | fetchFail (msg : String) : Err
  | invalidPrice (ticker : String) : Err
  | parseError : Err
  | writeError : Err
  deriving DecidableEq

/-- `getHistory`: `fs.existsSync(HISTORY_FILE) ? JSON.parse(fs.readFileSync(HISTORY_FILE)) : []`.
If the file is absent it returns `[]`; if the file exists, `JSON.parse` either
yields the stored list or throws on corrupt content. -/
def getHistory : FileState → Except Err (List NavSample)
  | .absent => .ok []
  | .corrupt => .error .parseError
  | .valid l => .ok l

/-- Ambient filesystem state for one request: the current content of
`history.json` and whether a `fs.writeFileSync` performed now would succeed. -/
structure FsState where
  file : FileState
  writeOk : Bool
  deriving DecidableEq

/-- JavaScript `array.slice(-100)`: the last 100 elements of the array (the
whole array when it is shorter than 100). -/
def sliceLast100 (l : List α) : List α := l.drop (l.length - 100)

/-- `saveHistory(entry)`: read the current history (`getHistory`, which may
throw on a corrupt file), push `entry`, and write back `history.slice(-100)`;
the write itself may fail. -/
def saveHistory (entry : NavSample) (fs : FsState) : Except Err FileState :=
  match getHistory fs.file with
  | .error e => .error e
  | .ok history =>
    if fs.writeOk then .ok (.valid (sliceLast100 (history ++ [entry])))
    else .error .writeError

/-- The hard-coded weight table `WEIGHTS`, in the source's (insertion) order;
`Object.entries` iterates string keys in insertion order. -/
def WEIGHTS : List (String × ℚ) :=
  [("AAPL", 65/1000), ("MSFT", 6/100), ("AMZN", 33/1000), ("GOOGL", 25/1000), ("NVDA", 4/100)]

/-- Outcome of `await fetchWithRetry(url)` for one symbol as observed by the
NAV loop: the promise rejected with an error message, or a response arrived
whose `data.c` field is either a number or absent/null. -/
inductive FetchResult where
  | fail (msg : String) : FetchResult
  | ok (c : Option ℚ) : FetchResult
  deriving DecidableEq

/-- The body of the `for (const [ticker, weight] of Object.entries(WEIGHTS))`
loop in the `/api/spy-nav` handler, accumulating `nav += data.c * weight`.
`if (!data.c) throw ...` rejects exactly the falsy values of `data.c`:
a missing/null field or the number `0`. -/
def navLoop (fetch : String → FetchResult) : List (String × ℚ) → ℚ → Except Err ℚ
  | [], nav => .ok nav
  | (ticker, weight) :: rest, nav =>
    match fetch ticker with
    | .fail msg => .error (.fetchFail msg)
    | .ok none => .error (.invalidPrice ticker)
    | .ok (some c) =>
      if c = 0 then .error (.invalidPrice ticker)
      else navLoop fetch rest (nav + c * weight)

/-- `parseFloat(x.toFixed(2))`: round to two decimal places, modelled as exact
rounding on rationals. -/
def round2 (q : ℚ) : ℚ := (round (q * 100) : ℚ) / 100

deriving instance DecidableEq for Except

/-- Observable outcome of one `/api/spy-nav` request: the HTTP response
(`.ok nav` for `200` with the NAV, `.error e` for `500`), the resulting state
of `history.json`, and whether `saveHistory` was invoked. -/
structure NavOutcome where
  resp : Except Err ℚ
  file : FileState
  appendCalled : Bool
  deriving DecidableEq

/-- The `GET /api/spy-nav` handler: fail fast when the API key is missing;
run the weighted-fetch loop; on success compute
`parseFloat((nav * 10).toFixed(2))`, call `saveHistory`, and respond 200 with
the NAV.  Any exception thrown inside the `try` block — including one thrown
by `saveHistory` — reaches the single `catch` and yields a 500 response, with
the file left as it was. -/
def spyNavHandler (hasKey : Bool) (fetch : String → FetchResult)
    (weights : List (String × ℚ)) (fs : FsState) (now : String) : NavOutcome :=
  if hasKey = false then ⟨.error .apiKeyMissing, fs.file, false⟩
  else
    match navLoop fetch weights 0 with
    | .error e => ⟨.error e, fs.file, false⟩
    | .ok nav =>
      let finalNav := round2 (nav * 10)
      match saveHistory ⟨now, finalNav⟩ fs with
      | .error e => ⟨.error e, fs.file, true⟩
      | .ok f => ⟨.ok finalNav, f, true⟩

/-- The `GET /api/spy-history` handler: `res.json(getHistory())`, with no
`try`/`catch`, so a `JSON.parse` failure propagates as an error response. -/
def spyHistoryHandler (file : FileState) : Except Err (List NavSample) :=
  getHistory file

/-- The `DELETE /api/spy-history` handler: unconditionally write `[]` to the
history file (it does not read the prior content); a write failure is caught
and reported as a 500. -/
def resetHistory (fs : FsState) : Except Err FileState :=
  if fs.writeOk then .ok (.valid []) else .error .writeError

/-- A `console.warn` line emitted before a retry:
`Retrying request (attempt/total): url`. -/
structure Warn where
  attempt : Nat
  total : ℤ
  url : String
  deriving DecidableEq

/-- The `for (let i = 0; i < retries; i++)` loop of `fetchWithRetry`, started
at index `i`.  Each iteration performs one attempt; on success the response is
returned immediately; on failure of the last iteration (`i === retries - 1`)
the error is re-thrown as is; otherwise a warn line is logged and the loop
continues after the delay.  Returns the result (`none` when the loop body
never ran, so the function returns `undefined`), the number of attempts
performed, and the warn log. -/
def fetchLoop {R : Type} (attempt : Nat → Except String R) (url : String)
    (retries : ℤ) (i : Nat) : Option (Except String R) × Nat × List Warn :=
  if _h : (i : ℤ) < retries then
    match attempt i with
    | .ok r => (some (.ok r), i + 1, [])
    | .error e =>
      if h2 : (i : ℤ) = retries - 1 then (some (.error e), i + 1, [])
      else
        let rest := fetchLoop attempt url retries (i + 1)
        (rest.1, rest.2.1, ⟨i + 1, retries, url⟩ :: rest.2.2)
  else (none, i, [])
termination_by (retries - (i : ℤ)).toNat
decreasing_by
  omega

/-- `fetchWithRetry(url, retries, delay)`: run the retry loop from `i = 0`.
The `delay` argument only times the sleep between attempts and is not
modelled; upstream attempt outcomes are the function `attempt`. -/
def fetchWithRetry {R : Type} (attempt : Nat → Except String R) (url : String)
    (retries : ℤ) : Option (Except String R) × Nat × List Warn :=
  fetchLoop attempt url retries 0

/-- Appending a list of samples one after another (each append performed with
a successful write), threading the resulting file state. -/
def appendMany : List NavSample → FileState → Except Err FileState
  | [], f => .ok f
  | s :: ss, f => (saveHistory s ⟨f, true⟩).bind (fun f2 => appendMany ss f2)

/-- The spec-side weighted sum `Σ price_i * weight_i` over a weight table,
for a price assignment `p`. -/
def navSum (p : String → ℚ) (weights : List (String × ℚ)) : ℚ :=
  (weights.map (fun tw => p tw.1 * tw.2)).sum

/-! ### History-store lemmas -/

lemma length_sliceLast100 (l : List α) : (sliceLast100 l).length ≤ 100 := by
  simp only [sliceLast100, List.length_drop]
  omega

lemma sliceLast100_append (x y : List α) :
    sliceLast100 (sliceLast100 x ++ y) = sliceLast100 (x ++ y) := by
  unfold sliceLast100
  have h1 : (x ++ y).drop (x.length - 100) = x.drop (x.length - 100) ++ y :=
    List.drop_append_of_le_length (by omega)
  rw [← h1, List.drop_drop]
  congr 1
  simp only [List.length_append, List.length_drop]
  omega

lemma sliceLast100_concat_getLast (x : List α) (s : α) :
    (sliceLast100 (x ++ [s])).getLast? = some s := by
  unfold sliceLast100
  rw [List.drop_append_of_le_length
    (by simp only [List.length_append, List.length_singleton]; omega)]
  exact List.getLast?_concat _

lemma saveHistory_absent (s : NavSample) :
    saveHistory s ⟨.absent, true⟩ = saveHistory s ⟨.valid [], true⟩ := rfl

lemma saveHistory_valid (s : NavSample) (l : List NavSample) :
    saveHistory s ⟨.valid l, true⟩ = .ok (.valid (sliceLast100 (l ++ [s]))) := rfl

lemma ok_bind {α β : Type} (x : α) (f : α → Except Err β) :
    (Except.ok x).bind f = f x := rfl

lemma appendMany_valid (ss : List NavSample) (hne : ss ≠ []) (l : List NavSample) :
    appendMany ss (.valid l) = .ok (.valid (sliceLast100 (l ++ ss))) := by
  induction ss generalizing l with
  | nil => cases hne rfl
  | cons s ss ih =>
    rw [appendMany, saveHistory_valid]
    simp only [ok_bind]
    cases ss with
    | nil => rw [appendMany]
    | cons t ts =>
      rw [ih (by simp), sliceLast100_append]
      simp [List.append_assoc]

lemma appendMany_absent (s : NavSample) (ss : List NavSample) :
    appendMany (s :: ss) .absent = appendMany (s :: ss) (.valid []) := by
  rw [appendMany, appendMany, saveHistory_absent]

/-! ### Claims about the history store (C4, C6, C8, C9) -/

/-- Claim C4: starting from any absent or well-formed history state, appending
101 samples (each write succeeding) leaves exactly the most recent 100 samples
in the log — the appended samples minus the oldest one, in original relative
order — and after any single successful append the persisted log length never
exceeds 100. -/
theorem appendMany_bounded_history (f : FileState) (l0 ss : List NavSample)
    (hfile : f = .absent ∨ f = .valid l0) (hlen : ss.length = 101) :
    appendMany ss f = .ok (.valid (ss.drop 1))
    ∧ ∀ (s : NavSample) (g : FsState) (l2 : List NavSample),
        saveHistory s g = .ok (.valid l2) → l2.length ≤ 100 := by
  constructor
  · have hne : ss ≠ [] := by
      intro hnil
      rw [hnil] at hlen
      simp at hlen
    have key : ∀ l : List NavSample,
        appendMany ss (.valid l) = .ok (.valid (ss.drop 1)) := by
      intro l
      rw [appendMany_valid ss hne l]
      congr 2
      unfold sliceLast100
      have hcount : (l ++ ss).length - 100 = l.length + 1 := by
        rw [List.length_append, hlen]
        omega
      rw [hcount, List.drop_append 1]
    rcases hfile with hf | hf
    · subst hf
      cases ss with
      | nil => cases hne rfl
      | cons s ss2 => rw [appendMany_absent, key]
    · subst hf
      exact key l0
  · intro s g l2 hsave
    obtain ⟨gf, gw⟩ := g
    cases gw with
    | false => cases gf <;> simp [saveHistory, getHistory] at hsave
    | true =>
      cases gf with
      | corrupt => simp [saveHistory, getHistory] at hsave
      | absent =>
        rw [saveHistory_absent, saveHistory_valid] at hsave
        simp only [Except.ok.injEq, FileState.valid.injEq] at hsave
        rw [← hsave]
        exact length_sliceLast100 _
      | valid l3 =>
        rw [saveHistory_valid] at hsave
        simp only [Except.ok.injEq, FileState.valid.injEq] at hsave
        rw [← hsave]
        exact length_sliceLast100 _

/-- Witness for C4: 101 identical samples appended to an absent store. -/
theorem appendMany_bounded_history_witness :
    appendMany (List.replicate 101 ⟨"2024-01-01T00:00:00Z", 1500⟩) .absent
        = .ok (.valid ((List.replicate 101
            (⟨"2024-01-01T00:00:00Z", 1500⟩ : NavSample)).drop 1))
    ∧ ∀ (s : NavSample) (g : FsState) (l2 : List NavSample),
        saveHistory s g = .ok (.valid l2) → l2.length ≤ 100 :=
  appendMany_bounded_history .absent [] _ (Or.inl rfl) (by simp)

/-- Claim C6 is false on the code: a corrupt history file is NOT given the
empty-history fallback.  `getHistory` only returns `[]` when the file is
absent; on an existing file with malformed content `JSON.parse` throws, so the
`GET /api/spy-history` handler propagates the parse error instead of returning
the empty log of the absent case. -/
theorem corrupt_history_no_empty_fallback :
    spyHistoryHandler .corrupt = .error .parseError
    ∧ spyHistoryHandler .corrupt ≠ .ok []
    ∧ spyHistoryHandler .absent = .ok [] := by
  refine ⟨rfl, ?_, rfl⟩
  intro hcontra
  exact Except.noConfusion hcontra

/-- Claim C6 (amended): the reference implementation does distinguish the two
cases — List on an absent resource returns the empty log, List on a corrupt
resource propagates the `JSON.parse` error (no empty-history fallback), and
List on a well-formed resource returns the stored entries. -/
theorem spyHistory_absent_vs_corrupt :
    spyHistoryHandler .absent = .ok []
    ∧ spyHistoryHandler .corrupt = .error .parseError
    ∧ ∀ l, spyHistoryHandler (.valid l) = .ok l :=
  ⟨rfl, rfl, fun _ => rfl⟩

/-- Claim C8: List on a store with no prior writes returns the empty
sequence, and after a (successful) Reset the next List returns the empty
sequence regardless of the prior content — Reset overwrites the persisted
state with the empty log unconditionally, without reading it. -/
theorem list_empty_initial_and_after_reset :
    getHistory .absent = .ok []
    ∧ ∀ fs : FsState, fs.writeOk = true →
        ∃ f, resetHistory fs = .ok f ∧ getHistory f = .ok [] := by
  refine ⟨rfl, fun fs hw => ⟨.valid [], ?_, rfl⟩⟩
  simp [resetHistory, hw]

/-- Witness for C8: resetting a store holding a non-empty history. -/
theorem list_empty_after_reset_witness :
    ∃ f, resetHistory ⟨.valid [⟨"2024-01-01T00:00:00Z", 1500⟩], true⟩ = .ok f
      ∧ getHistory f = .ok [] :=
  list_empty_initial_and_after_reset.2
    ⟨.valid [⟨"2024-01-01T00:00:00Z", 1500⟩], true⟩ rfl

/-- Claim C9: Append(s) followed by List returns a sequence whose last
element is s (for an appendable starting state and a successful write). -/
theorem append_then_list_last (s : NavSample) (f : FileState) (l : List NavSample)
    (hfile : f = .absent ∨ f = .valid l) :
    ∃ l2, saveHistory s ⟨f, true⟩ = .ok (.valid l2)
      ∧ getHistory (.valid l2) = .ok l2
      ∧ l2.getLast? = some s := by
  have hval : ∀ x : List NavSample, ∃ l2,
      saveHistory s ⟨.valid x, true⟩ = .ok (.valid l2)
        ∧ getHistory (.valid l2) = .ok l2 ∧ l2.getLast? = some s := by
    intro x
    exact ⟨sliceLast100 (x ++ [s]), saveHistory_valid s x, rfl,
      sliceLast100_concat_getLast x s⟩
  rcases hfile with hf | hf
  · subst hf
    rw [saveHistory_absent]
    exact hval []
  · subst hf
    exact hval l

/-! ### NAV aggregation lemmas (C1, C2, C5, C7) -/

lemma saveHistory_some (s : NavSample) (f : FileState) (l : List NavSample)
    (hfile : f = .absent ∨ f = .valid l) :
    ∃ l2, saveHistory s ⟨f, true⟩ = .ok (.valid l2) := by
  rcases hfile with hf | hf
  · subst hf
    exact ⟨_, (saveHistory_absent s).trans (saveHistory_valid s [])⟩
  · subst hf
    exact ⟨_, saveHistory_valid s l⟩

lemma navLoop_ok (fetch : String → FetchResult) (p : String → ℚ) :
    ∀ weights : List (String × ℚ),
      (∀ t w, (t, w) ∈ weights → fetch t = .ok (some (p t)) ∧ p t ≠ 0) →
      ∀ a : ℚ, navLoop fetch weights a = .ok (a + navSum p weights) := by
  intro weights
  induction weights with
  | nil =>
    intro _ a
    simp [navLoop, navSum]
  | cons tw rest ih =>
    obtain ⟨t, w⟩ := tw
    intro hp a
    obtain ⟨hf, hnz⟩ := hp t w (List.mem_cons_self _ _)
    simp only [navLoop, hf]
    rw [if_neg hnz, ih (fun t2 w2 hm => hp t2 w2 (List.mem_cons_of_mem _ hm))]
    simp only [navSum, List.map_cons, List.sum_cons, Except.ok.injEq]
    ring

lemma navLoop_error (fetch : String → FetchResult) :
    ∀ (weights : List (String × ℚ)) (t : String) (w : ℚ), (t, w) ∈ weights →
      ((∃ m, fetch t = .fail m) ∨ fetch t = .ok none ∨ fetch t = .ok (some 0)) →
      ∀ a : ℚ, ∃ e, navLoop fetch weights a = .error e := by
  intro weights
  induction weights with
  | nil =>
    intro t w hm
    cases hm
  | cons tw rest ih =>
    intro t w hm hbad a
    obtain ⟨t1, w1⟩ := tw
    cases hft1 : fetch t1 with
    | fail m =>
      exact ⟨.fetchFail m, by simp only [navLoop, hft1]⟩
    | ok c =>
      cases c with
      | none =>
        exact ⟨.invalidPrice t1, by simp only [navLoop, hft1]⟩
      | some q =>
        by_cases hq : q = 0
        · subst hq
          exact ⟨.invalidPrice t1, by simp [navLoop, hft1]⟩
        · have hmem : (t, w) ∈ rest := by
            rcases List.mem_cons.mp hm with heq | hmem
            · exfalso
              injection heq with h1 h2
              subst h1
              rcases hbad with ⟨m, hb⟩ | hb | hb <;> rw [hft1] at hb <;> simp_all
            · exact hmem
          obtain ⟨e, he⟩ := ih t w hmem hbad (a + q * w1)
          refine ⟨e, ?_⟩
          simp only [navLoop, hft1, if_neg hq]
          exact he

lemma spyNavHandler_error (fetch : String → FetchResult)
    (weights : List (String × ℚ)) (fs : FsState) (now t : String) (w : ℚ)
    (hm : (t, w) ∈ weights)
    (hbad : (∃ m, fetch t = .fail m) ∨ fetch t = .ok none ∨ fetch t = .ok (some 0)) :
    ∃ e, spyNavHandler true fetch weights fs now = ⟨.error e, fs.file, false⟩ := by
  obtain ⟨e, he⟩ := navLoop_error fetch weights t w hm hbad 0
  exact ⟨e, by simp [spyNavHandler, he]⟩

lemma round2_int (q : ℚ) (n : ℤ) (h : q * 100 = (n : ℚ)) :
    round2 q = (n : ℚ) / 100 := by
  unfold round2
  rw [h, round_intCast]

lemma saveHistory_fails (s : NavSample) (fs : FsState)
    (hbad : fs.writeOk = false ∨ fs.file = .corrupt) :
    ∃ e, saveHistory s fs = .error e ∧ (e = .writeError ∨ e = .parseError) := by
  obtain ⟨file, wok⟩ := fs
  rcases hbad with hb | hb
  · have hw : wok = false := hb
    subst hw
    cases file with
    | corrupt => exact ⟨.parseError, rfl, Or.inr rfl⟩
    | absent => exact ⟨.writeError, rfl, Or.inl rfl⟩
    | valid l => exact ⟨.writeError, rfl, Or.inl rfl⟩
  · have hf : file = .corrupt := hb
    subst hf
    exact ⟨.parseError, rfl, Or.inr rfl⟩

/-! ### Claims about the NAV pipeline -/

/-- Claim C1: with the API key configured, every symbol's fetch succeeding
with a (valid, positive) price, and persistence healthy, `GET /api/spy-nav`
responds with `round(10 * Σ price_i * weight_i, 2)`; and the whole observable
outcome is invariant under permuting the weight table, i.e. independent of
fetch arrival order. -/
theorem spyNav_weighted_sum (fetch : String → FetchResult) (p : String → ℚ)
    (weights weights2 : List (String × ℚ)) (f : FileState) (l : List NavSample)
    (now : String)
    (hfile : f = .absent ∨ f = .valid l)
    (hp : ∀ t w, (t, w) ∈ weights → fetch t = .ok (some (p t)) ∧ 0 < p t)
    (hperm : weights2.Perm weights) :
    (spyNavHandler true fetch weights ⟨f, true⟩ now).resp
        = .ok (round2 (10 * navSum p weights))
    ∧ spyNavHandler true fetch weights2 ⟨f, true⟩ now
        = spyNavHandler true fetch weights ⟨f, true⟩ now := by
  have hne : ∀ t w, (t, w) ∈ weights → fetch t = .ok (some (p t)) ∧ p t ≠ 0 :=
    fun t w hm => ⟨(hp t w hm).1, ne_of_gt (hp t w hm).2⟩
  have hne2 : ∀ t w, (t, w) ∈ weights2 → fetch t = .ok (some (p t)) ∧ p t ≠ 0 :=
    fun t w hm => hne t w (hperm.subset hm)
  have hl := navLoop_ok fetch p weights hne 0
  have hl2 := navLoop_ok fetch p weights2 hne2 0
  have hsum : navSum p weights2 = navSum p weights := by
    unfold navSum
    exact (hperm.map _).sum_eq
  rw [hsum] at hl2
  obtain ⟨l2, hsave⟩ :=
    saveHistory_some ⟨now, round2 ((0 + navSum p weights) * 10)⟩ f l hfile
  constructor
  · simp only [spyNavHandler, hl, hsave]
    simp [zero_add, mul_comm]
  · simp only [spyNavHandler, hl, hl2, hsave]

/-- Witness for C1: the spec scenario — weights A 1/2 and B 1/2, prices
A 100 and B 200, in both iteration orders. -/
theorem spyNav_weighted_sum_witness :
    (spyNavHandler true
          (fun s => if s = "A" then .ok (some 100) else .ok (some 200))
          [("A", 1/2), ("B", 1/2)] ⟨.absent, true⟩ "2024-01-01T00:00:00Z").resp
        = .ok (round2 (10 * navSum (fun s => if s = "A" then 100 else 200)
            [("A", 1/2), ("B", 1/2)]))
    ∧ spyNavHandler true
          (fun s => if s = "A" then .ok (some 100) else .ok (some 200))
          [("B", 1/2), ("A", 1/2)] ⟨.absent, true⟩ "2024-01-01T00:00:00Z"
        = spyNavHandler true
          (fun s => if s = "A" then .ok (some 100) else .ok (some 200))
          [("A", 1/2), ("B", 1/2)] ⟨.absent, true⟩ "2024-01-01T00:00:00Z" :=
  spyNav_weighted_sum _ (fun s => if s = "A" then 100 else 200) _
    [("B", 1/2), ("A", 1/2)] .absent [] _ (Or.inl rfl)
    (by
      intro t w hm
      rcases List.mem_cons.mp hm with h | h
      · injection h with h1 h2
        subst h1
        refine ⟨rfl, ?_⟩
        show (0 : ℚ) < 100
        norm_num
      · rcases List.mem_cons.mp h with h | h
        · injection h with h1 h2
          subst h1
          refine ⟨rfl, ?_⟩
          show (0 : ℚ) < 200
          norm_num
        · cases h)
    (List.Perm.swap _ _ _)

/-- Claim C2: if any one symbol's fetch ultimately fails (after exhausting
its retries), the whole aggregation fails: the handler produces an error
response, `saveHistory` is never invoked, and the persisted history is
unchanged. -/
theorem spyNav_allOrNothing (fetch : String → FetchResult)
    (weights : List (String × ℚ)) (fs : FsState) (now t : String) (w : ℚ)
    (m : String) (hm : (t, w) ∈ weights) (hfail : fetch t = .fail m) :
    ∃ e, spyNavHandler true fetch weights fs now = ⟨.error e, fs.file, false⟩ :=
  spyNavHandler_error fetch weights fs now t w hm (Or.inl ⟨m, hfail⟩)

/-- Witness for C2: the AMZN fetch fails while the others succeed; the run
returns an error and leaves the (absent) history untouched. -/
theorem spyNav_allOrNothing_witness :
    ∃ e, spyNavHandler true
        (fun s => if s = "AMZN" then .fail "timeout of 10000ms exceeded"
          else .ok (some 100))
        WEIGHTS ⟨.absent, true⟩ "2024-01-01T00:00:00Z"
      = ⟨.error e, .absent, false⟩ :=
  spyNav_allOrNothing _ WEIGHTS ⟨.absent, true⟩ "2024-01-01T00:00:00Z"
    "AMZN" (33/1000) "timeout of 10000ms exceeded" (by simp [WEIGHTS]) rfl

/-- Claim C5 is false on the code: `saveHistory` runs inside the same `try`
block as the fetch loop, so on a write failure the computed NAV (here 223) is
not returned — the handler takes the catch path and responds with the 500
error instead. -/
theorem persistence_failure_masks_nav :
    spyNavHandler true (fun _ => .ok (some 100)) WEIGHTS
        ⟨.absent, false⟩ "2024-01-01T00:00:00Z"
      = ⟨.error .writeError, .absent, true⟩ := by
  decide

/-- Claim C5 (amended): when the NAV computation succeeds but the history
append fails (write failure, or parse failure on a corrupt history file), the
handler does NOT return the computed NAV: the persistence error reaches the
shared catch and surfaces as the 500 `Failed to compute NAV` response —
the persistence failure masks the successful computation. -/
theorem spyNav_persist_failure_no_nav (fetch : String → FetchResult)
    (p : String → ℚ) (weights : List (String × ℚ)) (fs : FsState) (now : String)
    (hp : ∀ t w, (t, w) ∈ weights → fetch t = .ok (some (p t)) ∧ 0 < p t)
    (hbadfs : fs.writeOk = false ∨ fs.file = .corrupt) :
    ∃ e, spyNavHandler true fetch weights fs now = ⟨.error e, fs.file, true⟩
      ∧ (e = .writeError ∨ e = .parseError) := by
  have hne : ∀ t w, (t, w) ∈ weights → fetch t = .ok (some (p t)) ∧ p t ≠ 0 :=
    fun t w hm => ⟨(hp t w hm).1, ne_of_gt (hp t w hm).2⟩
  have hl := navLoop_ok fetch p weights hne 0
  rw [zero_add] at hl
  obtain ⟨e, hsave, he⟩ :=
    saveHistory_fails ⟨now, round2 (navSum p weights * 10)⟩ fs hbadfs
  refine ⟨e, ?_, he⟩
  simp [spyNavHandler, hl, hsave]

/-- Witness for C5 (amended): a single-symbol table, successful fetch, and a
failing write. -/
theorem spyNav_persist_failure_no_nav_witness :
    ∃ e, spyNavHandler true (fun _ => .ok (some 100)) [("SPY", 1)]
        ⟨.absent, false⟩ "2024-01-01T00:00:00Z"
      = ⟨.error e, .absent, true⟩ ∧ (e = .writeError ∨ e = .parseError) :=
  spyNav_persist_failure_no_nav _ (fun _ => 100) [("SPY", 1)]
    ⟨.absent, false⟩ "2024-01-01T00:00:00Z"
    (by
      intro t w hm
      rcases List.mem_cons.mp hm with h | h
      · injection h with h1 h2
        subst h1
        exact ⟨rfl, by norm_num⟩
      · cases h)
    (Or.inl rfl)

/-- Claim C7 is false on the code: the validity check `if (!data.c)` only
rejects falsy prices, so a strictly negative last price is accepted and
silently incorporated into the NAV; here every quote is −100 and the request
succeeds with NAV −223 instead of failing. -/
theorem negative_price_accepted :
    spyNavHandler true (fun _ => .ok (some (-100))) WEIGHTS
        ⟨.absent, true⟩ "2024-01-01T00:00:00Z"
      = ⟨.ok (-223), .valid [⟨"2024-01-01T00:00:00Z", -223⟩], true⟩ := by
  have hloop : navLoop (fun _ => FetchResult.ok (some (-100))) WEIGHTS 0
      = .ok (-223/10) := by
    norm_num [WEIGHTS, navLoop]
  have harg : ((-223/10 : ℚ) * 10) = -223 := by norm_num
  have hround : round2 ((-223/10 : ℚ) * 10) = -223 := by
    rw [harg, round2_int (-223 : ℚ) (-22300) (by norm_num)]
    norm_num
  simp only [spyNavHandler, hloop, hround]
  rw [saveHistory_absent, saveHistory_valid]
  norm_num [sliceLast100]

/-- Claim C7 (amended): a missing/null or zero last price is treated as an
invalid quote and fails the whole aggregation (error response, no append,
history unchanged) — but the falsy-value check does not reject strictly
negative prices, which pass into the NAV sum. -/
theorem spyNav_falsy_price_fails (fetch : String → FetchResult)
    (weights : List (String × ℚ)) (fs : FsState) (now t : String) (w : ℚ)
    (hm : (t, w) ∈ weights)
    (hbad : fetch t = .ok none ∨ fetch t = .ok (some 0)) :
    ∃ e, spyNavHandler true fetch weights fs now = ⟨.error e, fs.file, false⟩ :=
  spyNavHandler_error fetch weights fs now t w hm (Or.inr hbad)

/-- Witness for C7 (amended): the GOOGL quote arrives with `c: 0`; the
aggregation fails and nothing is persisted. -/
theorem spyNav_falsy_price_fails_witness :
    ∃ e, spyNavHandler true
        (fun s => if s = "GOOGL" then .ok (some 0) else .ok (some 100))
        WEIGHTS ⟨.absent, true⟩ "2024-01-01T00:00:00Z"
      = ⟨.error e, .absent, false⟩ :=
  spyNav_falsy_price_fails _ WEIGHTS ⟨.absent, true⟩ "2024-01-01T00:00:00Z"
    "GOOGL" (25/1000) (by simp [WEIGHTS]) (Or.inr rfl)

/-! ### Retry-loop lemmas and claims (C3, C10) -/

lemma fetchLoop_firstSuccess {R : Type} (attempt : Nat → Except String R)
    (url : String) (retries : ℤ) (r : R) (k : Nat)
    (hk : (k : ℤ) < retries) (hok : attempt k = .ok r) :
    ∀ m i, i + m = k → (∀ j, i ≤ j → j < k → ∃ e, attempt j = .error e) →
      ∃ log, fetchLoop attempt url retries i = (some (.ok r), k + 1, log) := by
  intro m
  induction m with
  | zero =>
    intro i hik _
    have hi : i = k := by omega
    subst hi
    refine ⟨[], ?_⟩
    rw [fetchLoop, dif_pos hk]
    simp only [hok]
  | succ m ih =>
    intro i hik hfail
    have hikk : i < k := by omega
    obtain ⟨e, he⟩ := hfail i (le_refl i) hikk
    have hilt : (i : ℤ) < retries := by omega
    have hne : ¬((i : ℤ) = retries - 1) := by omega
    obtain ⟨log, hrec⟩ := ih (i + 1) (by omega)
      (fun j hj1 hj2 => hfail j (by omega) hj2)
    refine ⟨⟨i + 1, retries, url⟩ :: log, ?_⟩
    rw [fetchLoop, dif_pos hilt]
    simp only [he]
    rw [dif_neg hne]
    simp only [hrec]

lemma fetchLoop_allFail {R : Type} (attempt : Nat → Except String R)
    (url : String) (retries : ℤ) (e : String)
    (hr : 1 ≤ retries)
    (hlast : attempt (retries - 1).toNat = .error e)
    (hfail : ∀ j : Nat, (j : ℤ) < retries → ∃ e2, attempt j = .error e2) :
    ∀ (m i : Nat), (i : ℤ) + (m : ℤ) = retries - 1 →
      ∃ log, fetchLoop attempt url retries i
        = (some (.error e), retries.toNat, log) := by
  intro m
  induction m with
  | zero =>
    intro i hi
    have hilt : (i : ℤ) < retries := by omega
    have hitn : i = (retries - 1).toNat := by omega
    subst hitn
    refine ⟨[], ?_⟩
    rw [fetchLoop, dif_pos hilt]
    simp only [hlast]
    rw [dif_pos (by omega)]
    have hsucc : (retries - 1).toNat + 1 = retries.toNat := by omega
    rw [hsucc]
  | succ m ih =>
    intro i hi
    have hilt : (i : ℤ) < retries := by omega
    have hne : ¬((i : ℤ) = retries - 1) := by omega
    obtain ⟨e2, he2⟩ := hfail i hilt
    obtain ⟨log, hrec⟩ := ih (i + 1) (by omega)
    refine ⟨⟨i + 1, retries, url⟩ :: log, ?_⟩
    rw [fetchLoop, dif_pos hilt]
    simp only [he2]
    rw [dif_neg hne]
    simp only [hrec]

/-- Claim C3 (amended): the retry loop performs exactly `min(k, maxRetries)`
attempts where `k` is the (1-based) index of the first successful attempt,
returning that success immediately; if all `maxRetries` attempts fail, it
performs exactly `maxRetries` attempts and propagates the final underlying
error verbatim — with no annotation added to it (the symbol/attempt-count
warn lines exist only before retries, never on the final failure). -/
theorem fetchWithRetry_attempt_count {R : Type} (attempt : Nat → Except String R)
    (url : String) (retries : ℤ) :
    (∀ (k : Nat) (r : R), (k : ℤ) < retries →
        (∀ j, j < k → ∃ e, attempt j = .error e) → attempt k = .ok r →
        ∃ log, fetchWithRetry attempt url retries = (some (.ok r), k + 1, log))
    ∧ (∀ e : String, 1 ≤ retries → attempt (retries - 1).toNat = .error e →
        (∀ j : Nat, (j : ℤ) < retries → ∃ e2, attempt j = .error e2) →
        ∃ log, fetchWithRetry attempt url retries
          = (some (.error e), retries.toNat, log)) := by
  constructor
  · intro k r hk hfail hok
    exact fetchLoop_firstSuccess attempt url retries r k hk hok k 0 (by omega)
      (fun j _ hj => hfail j hj)
  · intro e hr hlast hfail
    exact fetchLoop_allFail attempt url retries e hr hlast hfail
      (retries - 1).toNat 0 (by omega)

/-- Witness for C3 (amended): success on the second of three attempts makes
exactly two attempts; two failing attempts out of two surface the last
error. -/
theorem fetchWithRetry_attempt_count_witness :
    (∃ log, fetchWithRetry
        (fun j => if j = 1 then Except.ok (1 : ℤ) else Except.error "boom")
        "https://example.com" 3 = (some (.ok 1), 2, log))
    ∧ (∃ log, fetchWithRetry (fun _ => (Except.error "boom" : Except String ℤ))
        "https://example.com" 2 = (some (.error "boom"), 2, log)) := by
  constructor
  · exact (fetchWithRetry_attempt_count _ _ 3).1 1 1 (by norm_num)
      (fun j hj => ⟨"boom", by interval_cases j; rfl⟩) rfl
  · have h := (fetchWithRetry_attempt_count
        (fun _ => (Except.error "boom" : Except String ℤ)) "https://example.com" 2).2
        "boom" (by norm_num) rfl (fun j hj => ⟨"boom", rfl⟩)
    simpa using h

/-- Claim C3 counterexample for the annotation conjunct: with one attempt
that fails, the propagated error is exactly the underlying error, the
attempt count is 1, and no warn line is produced at all — nothing in the
output is annotated with the symbol or the number of attempts. -/
theorem fetchWithRetry_error_verbatim :
    fetchWithRetry (fun _ => (Except.error "ECONNRESET" : Except String ℤ))
        "https://finnhub.io/api/v1/quote?symbol=AAPL&token=k" 1
      = (some (.error "ECONNRESET"), 1, []) := by
  rw [fetchWithRetry, fetchLoop]
  norm_num

/-- Claim C10: with a non-positive `retries`, the loop body never executes —
no attempt is made (attempt count 0), no error is raised, and the function
returns `undefined` (modelled as `none`), so a caller that destructures the
result fails outside the fetcher's own error path. -/
theorem fetchWithRetry_nonpositive_retries {R : Type}
    (attempt : Nat → Except String R) (url : String) (retries : ℤ)
    (hr : retries ≤ 0) :
    fetchWithRetry attempt url retries = (none, 0, []) := by
  rw [fetchWithRetry, fetchLoop, dif_neg (by omega)]

/-- Witness for C10 at `retries = 0`. -/
theorem fetchWithRetry_nonpositive_retries_witness :
    fetchWithRetry (fun _ => (Except.error "boom" : Except String ℤ))
        "https://example.com" 0 = (none, 0, []) :=
  fetchWithRetry_nonpositive_retries _ _ 0 (by norm_num)

/-- Witness for C9: append to a store already holding one sample. -/
theorem append_then_list_last_witness :
    ∃ l2, saveHistory ⟨"2024-01-02T00:00:00Z", 1501⟩
        ⟨.valid [⟨"2024-01-01T00:00:00Z", 1500⟩], true⟩ = .ok (.valid l2)
      ∧ getHistory (.valid l2) = .ok l2
      ∧ l2.getLast? = some ⟨"2024-01-02T00:00:00Z", 1501⟩ :=
  append_then_list_last _ _ [⟨"2024-01-01T00:00:00Z", 1500⟩] (Or.inr rfl)

end SpyNav
